import Mathlib

/-!
Verification of the `tree-sitter-simplex` C binding header
(`bindings/c/tree-sitter-simplex.h`) against its specification.

The repository's hand-written surface is the header alone.  We embed it at
two levels:

1. The header text itself: a list of preprocessor lines over a small model
   of C declarations, together with a conditional-compilation semantics
   (`ppProcess`).  This settles the claims about the header's shape: the
   include guard, the C++ linkage wrapper, the symbol name and the
   signature of the declared accessor.

2. The behaviour of the accessor `tree_sitter_simplex`.  Its defining
   translation unit (the generated `parser.c`) is not part of the
   repository, so its behaviour is modelled from the spec (see the doc
   comments marked `Modelled from the spec:`): a pure projection of a
   statically allocated, immutable descriptor.
-/

/-- A (simplified) C type expression, enough to express the header's
`const TSLanguage *` return type. -/
inductive CType where
  | named (n : String)
  | const (t : CType)
  | ptr (t : CType)
  deriving DecidableEq

/-- The parameter list of a C function declarator.  `voidSpec` is the
prototype `(void)`: exactly zero arguments and not variadic. -/
inductive ParamSpec where
  | voidSpec
  | list (tys : List CType) (variadic : Bool)
  deriving DecidableEq

/-- Number of declared (non-variadic) arguments of a parameter list. -/
def ParamSpec.argCount : ParamSpec → Nat
  | ParamSpec.voidSpec => 0
  | ParamSpec.list tys _ => tys.length

/-- Whether a parameter list is variadic.  `(void)` is not. -/
def ParamSpec.isVariadic : ParamSpec → Bool
  | ParamSpec.voidSpec => false
  | ParamSpec.list _ v => v

/-- A C function declaration: return type, symbol name, parameter list. -/
structure CFunDecl where
  ret : CType
  name : String
  paramsSpec : ParamSpec
  deriving DecidableEq

/-- A top-level C item as emitted by preprocessing the header.
`typedefOpaqueStruct s t` models `typedef struct s t;` where `struct s`
is only forward-declared (no member list anywhere), i.e. opaque.
`structDef` (a full `struct s { ... };` definition) never occurs in this
header; it is present in the model so that its absence can be stated.
`cLinkageBegin` / `cLinkageEnd` model the `extern "C" {` / `}` brackets
requesting unmangled C linkage under C++. -/
inductive CItem where
  | typedefOpaqueStruct (structName tyName : String)
  | structDef (structName : String) (fields : List (String × CType))
  | cLinkageBegin
  | cLinkageEnd
  | funDecl (d : CFunDecl)
  deriving DecidableEq

/-- A line of the header, at preprocessor granularity. -/
inductive PPLine where
  | ifndefDir (n : String)
  | ifdefDir (n : String)
  | define (n : String)
  | endif
  | code (c : CItem)
  deriving DecidableEq

/-- Preprocessor state: the set of defined macro names. -/
structure PPState where
  defined : List String
  deriving DecidableEq

/-- Whether macro `n` is defined. -/
def PPState.isDefined (st : PPState) (n : String) : Bool :=
  st.defined.contains n

/-- Conditional-compilation semantics.  `stack` holds the truth values of
the enclosing `#ifndef`/`#ifdef` directives; a line takes effect only when
all of them hold.  Directives in an inactive region still push/pop the
stack but neither define macros nor emit code, as in C.  Returns the
emitted items and the final macro state. -/
def ppProcess : List PPLine → PPState → List Bool → List CItem × PPState
  | [], st, _ => ([], st)
  | PPLine.ifndefDir n :: rest, st, stack =>
      ppProcess rest st ((!st.isDefined n) :: stack)
  | PPLine.ifdefDir n :: rest, st, stack =>
      ppProcess rest st (st.isDefined n :: stack)
  | PPLine.endif :: rest, st, stack =>
      ppProcess rest st stack.tail
  | PPLine.define n :: rest, st, stack =>
      if stack.all id then ppProcess rest ⟨n :: st.defined⟩ stack
      else ppProcess rest st stack
  | PPLine.code c :: rest, st, stack =>
      match ppProcess rest st stack with
      | (items, st') => if stack.all id then (c :: items, st') else (items, st')

/-- The declaration `const TSLanguage *tree_sitter_simplex(void);` from
line 10 of the header. -/
def tree_sitter_simplex_decl : CFunDecl :=
  ⟨CType.ptr (CType.const (CType.named "TSLanguage")),
   "tree_sitter_simplex",
   ParamSpec.voidSpec⟩

/-- The header `bindings/c/tree-sitter-simplex.h`, line by line. -/
def treeSitterSimplexHeader : List PPLine :=
  [PPLine.ifndefDir "TREE_SITTER_SIMPLEX_H_",
   PPLine.define "TREE_SITTER_SIMPLEX_H_",
   PPLine.code (CItem.typedefOpaqueStruct "TSLanguage" "TSLanguage"),
   PPLine.ifdefDir "__cplusplus",
   PPLine.code CItem.cLinkageBegin,
   PPLine.endif,
   PPLine.code (CItem.funDecl tree_sitter_simplex_decl),
   PPLine.ifdefDir "__cplusplus",
   PPLine.code CItem.cLinkageEnd,
   PPLine.endif,
   PPLine.endif]

/-- Initial preprocessor state of a translation unit: a C++ compiler
predefines `__cplusplus`, a C compiler does not. -/
def initState (cpp : Bool) : PPState :=
  ⟨if cpp then ["__cplusplus"] else []⟩

/-- One inclusion of the header from preprocessor state `st`. -/
def includeOnce (st : PPState) : List CItem × PPState :=
  ppProcess treeSitterSimplexHeader st []

/-- `n` successive inclusions of the header, concatenating the emitted
items and threading the macro state. -/
def includeN : Nat → PPState → List CItem × PPState
  | 0, st => ([], st)
  | n + 1, st =>
      match includeOnce st with
      | (items, st₁) =>
          match includeN n st₁ with
          | (rest, st₂) => (items ++ rest, st₂)

/-- What the header expands to in a C translation unit. -/
def headerEmitted (cpp : Bool) : List CItem :=
  (includeOnce (initState cpp)).fst

/-!
## Behaviour of the accessor (modelled from the spec)

The translation unit defining `tree_sitter_simplex` (the generated
`parser.c`) is not part of the repository; only its declaration is.  The
definitions below are therefore modelled from the spec.
-/

/-- Process memory relevant to the contract: the bytes of the statically
allocated grammar descriptor, and all other caller-visible mutable state. -/
structure ProcState where
  descriptorBytes : List Nat
  otherMem : List Nat
  deriving DecidableEq

/-- A runtime error, were the interface able to express one. -/
inductive RuntimeError where
  | err (msg : String)
  deriving DecidableEq

/-- The null pointer value. -/
def NULL : Nat := 0

/-- Modelled from the spec: the descriptor is "statically allocated" and
"lives for the lifetime of the hosting process"; its (nonzero) address is
fixed at load time.  We pick 1. -/
def descriptorAddr : Nat := 1

/-- Modelled from the spec: the generated `parser.c`, which defines the
body of `tree_sitter_simplex`, is absent from the repository.  Per the
spec the accessor is "a pure projection of a static object" that returns
"a non-null reference to an immutable parser-description object,
identical on every call", with "no observable side effects" and no error
conditions.  The call relates a pre-state to a returned handle and a
post-state (or, hypothetically, a runtime error). -/
def tree_sitter_simplex (s : ProcState) : Except RuntimeError (Nat × ProcState) :=
  Except.ok (descriptorAddr, s)

/-- The caller-visible state effect of one invocation (the interface's
only operation); an error would leave the state unchanged. -/
def stepCall (s : ProcState) : ProcState :=
  match tree_sitter_simplex s with
  | Except.ok (_, s') => s'
  | Except.error _ => s

/-- The state after `n` successive invocations. -/
def runCalls : Nat → ProcState → ProcState
  | 0, s => s
  | n + 1, s => runCalls n (stepCall s)

/-- A shared-state execution of a schedule of invocations: each list
element is one invocation by some reader, in the interleaving order the
scheduler chose.  Returns the handles observed, in order, and the final
shared state. -/
def runSchedule : List Nat → ProcState → List Nat × ProcState
  | [], s => ([], s)
  | _ :: rest, s =>
      match tree_sitter_simplex s with
      | Except.ok (h, s') =>
          match runSchedule rest s' with
          | (hs, sf) => (h :: hs, sf)
      | Except.error _ => runSchedule rest s

/-!
## Helper lemmas (shared)
-/

theorem headerEmitted_false_eq :
    headerEmitted false =
      [CItem.typedefOpaqueStruct "TSLanguage" "TSLanguage",
       CItem.funDecl tree_sitter_simplex_decl] := rfl

theorem headerEmitted_true_eq :
    headerEmitted true =
      [CItem.typedefOpaqueStruct "TSLanguage" "TSLanguage",
       CItem.cLinkageBegin,
       CItem.funDecl tree_sitter_simplex_decl,
       CItem.cLinkageEnd] := rfl

theorem includeOnce_guarded (st : PPState)
    (hg : st.isDefined "TREE_SITTER_SIMPLEX_H_" = true) :
    includeOnce st = ([], st) := by
  cases hb : st.isDefined "__cplusplus" <;>
    simp [includeOnce, treeSitterSimplexHeader, ppProcess, hg, hb]

theorem firstInclude_defines_guard (cpp : Bool) :
    ((includeOnce (initState cpp)).snd).isDefined "TREE_SITTER_SIMPLEX_H_" = true := by
  cases cpp <;> rfl

/-!
## The claims
-/

/-- C1: for every pair of invocations of `tree_sitter_simplex` within the
same process (any two pre-states), the two returned handles are equal:
the accessor is deterministic and idempotent. -/
theorem tree_sitter_simplex_pairwise_identical (s t : ProcState)
    (h₁ h₂ : Nat) (s' t' : ProcState)
    (e₁ : tree_sitter_simplex s = Except.ok (h₁, s'))
    (e₂ : tree_sitter_simplex t = Except.ok (h₂, t')) :
    h₁ = h₂ := by
  have a₁ : descriptorAddr = h₁ := congrArg Prod.fst (Except.ok.inj e₁)
  have a₂ : descriptorAddr = h₂ := congrArg Prod.fst (Except.ok.inj e₂)
  exact a₁.symm.trans a₂

theorem tree_sitter_simplex_pairwise_identical_witness :
    descriptorAddr = descriptorAddr :=
  tree_sitter_simplex_pairwise_identical ⟨[], []⟩ ⟨[7], [8]⟩
    descriptorAddr descriptorAddr ⟨[], []⟩ ⟨[7], [8]⟩ rfl rfl

/-- C2: every invocation of `tree_sitter_simplex` returns a non-null
reference to the parser-description object. -/
theorem tree_sitter_simplex_nonnull (s : ProcState)
    (h : Nat) (s' : ProcState)
    (e : tree_sitter_simplex s = Except.ok (h, s')) :
    h ≠ NULL := by
  have a : descriptorAddr = h := congrArg Prod.fst (Except.ok.inj e)
  rw [← a]
  decide

theorem tree_sitter_simplex_nonnull_witness :
    descriptorAddr ≠ NULL :=
  tree_sitter_simplex_nonnull ⟨[], []⟩ descriptorAddr ⟨[], []⟩ rfl

/-- C3: the accessor is total and has no error conditions: every
invocation returns normally with a result, and no invocation yields a
runtime error through the interface. -/
theorem tree_sitter_simplex_total (s : ProcState) :
    (∃ h s', tree_sitter_simplex s = Except.ok (h, s')) ∧
    ∀ e, tree_sitter_simplex s ≠ Except.error e := by
  exact ⟨⟨descriptorAddr, s, rfl⟩, fun e hc => Except.noConfusion hc⟩

/-- C4: invoking the accessor has no observable side effects: the
caller-visible process state after the call is the pre-state, so the
function is a pure projection of a static object. -/
theorem tree_sitter_simplex_no_side_effects (s : ProcState)
    (h : Nat) (s' : ProcState)
    (e : tree_sitter_simplex s = Except.ok (h, s')) :
    s' = s :=
  (congrArg Prod.snd (Except.ok.inj e)).symm

theorem tree_sitter_simplex_no_side_effects_witness :
    (⟨[3], [4]⟩ : ProcState) = ⟨[3], [4]⟩ :=
  tree_sitter_simplex_no_side_effects ⟨[3], [4]⟩ descriptorAddr ⟨[3], [4]⟩ rfl

/-- C5: the parser-description object is immutable after load: after any
number of interface operations (the accessor call is the only one), the
descriptor's bytes are identical to what they were, and the header's
declared return type is a pointer to a const-qualified referent, so the
interface offers no mutating operation. -/
theorem descriptor_immutable (n : Nat) (s : ProcState) :
    (runCalls n s).descriptorBytes = s.descriptorBytes ∧
    tree_sitter_simplex_decl.ret =
      CType.ptr (CType.const (CType.named "TSLanguage")) := by
  refine ⟨?_, rfl⟩
  induction n generalizing s with
  | zero => rfl
  | succ n ih => exact ih s

/-- C6: the accessor's exported symbol name has the form
`<prefix>_<grammar_identifier>` with ecosystem tag `tree_sitter` and
grammar identifier `simplex`, and a function of exactly that name is what
the header declares (in both C and C++ translation units). -/
theorem symbol_name_encodes_grammar :
    tree_sitter_simplex_decl.name = "tree_sitter" ++ "_" ++ "simplex" ∧
    CItem.funDecl tree_sitter_simplex_decl ∈ headerEmitted false ∧
    CItem.funDecl tree_sitter_simplex_decl ∈ headerEmitted true := by
  refine ⟨rfl, ?_, ?_⟩
  · rw [headerEmitted_false_eq]; simp
  · rw [headerEmitted_true_eq]; simp

/-- C7: the accessor takes no arguments, is not variadic, and returns a
pointer to the opaque `TSLanguage` structure: the header only
forward-declares `TSLanguage` (an opaque typedef, never a struct
definition with members), so the descriptor's contents are not exposed. -/
theorem accessor_signature_opaque (cpp : Bool) :
    tree_sitter_simplex_decl.paramsSpec.argCount = 0 ∧
    tree_sitter_simplex_decl.paramsSpec.isVariadic = false ∧
    tree_sitter_simplex_decl.ret =
      CType.ptr (CType.const (CType.named "TSLanguage")) ∧
    CItem.typedefOpaqueStruct "TSLanguage" "TSLanguage" ∈ headerEmitted cpp ∧
    ∀ fields, CItem.structDef "TSLanguage" fields ∉ headerEmitted cpp := by
  refine ⟨rfl, rfl, rfl, ?_, ?_⟩
  · cases cpp
    · rw [headerEmitted_false_eq]; simp
    · rw [headerEmitted_true_eq]; simp
  · intro fields
    cases cpp
    · rw [headerEmitted_false_eq]; simp
    · rw [headerEmitted_true_eq]; simp

/-- C8: including the header any further time after the first, in the
same translation unit (whether C or C++), emits nothing and leaves the
preprocessor state unchanged: the include guard makes repeated inclusion
idempotent. -/
theorem repeated_inclusion_idempotent (cpp : Bool) (n : Nat) :
    includeN n (includeOnce (initState cpp)).snd =
      ([], (includeOnce (initState cpp)).snd) := by
  induction n with
  | zero => rfl
  | succ n ih =>
      rw [includeN, includeOnce_guarded _ (firstInclude_defines_guard cpp)]
      simp [ih]

/-- C9: the declaration of `tree_sitter_simplex` is visible to both C and
C++ translation units, and under C++ it is emitted inside the
`extern "C"` linkage brackets, requesting unmangled C conventions. -/
theorem declaration_visible_c_and_cpp :
    CItem.funDecl tree_sitter_simplex_decl ∈ headerEmitted false ∧
    headerEmitted true =
      [CItem.typedefOpaqueStruct "TSLanguage" "TSLanguage",
       CItem.cLinkageBegin,
       CItem.funDecl tree_sitter_simplex_decl,
       CItem.cLinkageEnd] := by
  refine ⟨?_, headerEmitted_true_eq⟩
  rw [headerEmitted_false_eq]; simp

theorem runSchedule_pure (sched : List Nat) (s : ProcState) :
    (∀ h ∈ (runSchedule sched s).fst, h = descriptorAddr) ∧
    (runSchedule sched s).snd = s := by
  induction sched generalizing s with
  | nil => exact ⟨fun h hm => absurd hm (List.not_mem_nil h), rfl⟩
  | cons i rest ih =>
      constructor
      · intro h hm
        rw [runSchedule] at hm
        simp only [tree_sitter_simplex] at hm
        rcases hq : runSchedule rest s with ⟨hs', sf⟩
        rw [hq] at hm
        simp only [List.mem_cons] at hm
        cases hm with
        | inl h0 => exact h0
        | inr h1 =>
            have := (ih s).1 h
            rw [hq] at this
            exact this h1
      · rw [runSchedule]
        simp only [tree_sitter_simplex]
        rcases hq : runSchedule rest s with ⟨hs', sf⟩
        have := (ih s).2
        rw [hq] at this
        exact this

/-- C10: under `n ≥ 2` concurrent readers, any interleaved schedule of
invocations on the shared state returns the identical reference at every
invocation, and no invocation writes the shared state (so the read path
is race-free and needs no synchronization). -/
theorem concurrent_readers_safe (n : Nat) (_hn : 2 ≤ n)
    (sched : List Nat) (_hs : ∀ i ∈ sched, i < n) (s : ProcState) :
    (∀ h ∈ (runSchedule sched s).fst, h = descriptorAddr) ∧
    (runSchedule sched s).snd = s :=
  runSchedule_pure sched s

theorem concurrent_readers_safe_witness :
    (∀ h ∈ (runSchedule [0, 1, 0, 1] ⟨[], []⟩).fst, h = descriptorAddr) ∧
    (runSchedule [0, 1, 0, 1] (⟨[], []⟩ : ProcState)).snd = ⟨[], []⟩ :=
  concurrent_readers_safe 2 (by decide) [0, 1, 0, 1] (by decide) ⟨[], []⟩
